import Mathlib

/-!
Shallow embedding of `src/main.py` (AudioToTextConverter).

Conventions of the embedding:
* Python strings are Lean `String`; `os.path` functions are modelled for
  POSIX-style paths.
* `os.path.exists` is modelled by membership in an explicit list `fs` of the
  paths that exist on disk.
* Python `float` results of `int(matches[-1]) / 100` are modelled as exact
  rationals (the only arithmetic performed is division by 100).
* The Tk main loop and the worker threads are modelled by explicit atomic
  steps on an `AppState` record: `enqueue_files` (runs on the UI thread),
  `process_next_task` (pops the queue and spawns a transcription worker
  thread, the live workers being recorded in `AppState.workers`), and
  `execute_transcription` (one complete run of a worker thread, with the
  result of the `model.transcribe` call supplied as an `Outcome` parameter).
  An interleaving of UI events with a running worker is modelled by applying
  `enqueue_files` between the `process_next_task` that spawned the worker and
  the `execute_transcription` step that completes it.
-/

/-- The character with code 123 (left curly bracket). -/
def lbraceChar : Char := Char.ofNat 123

/-- The character with code 125 (right curly bracket). -/
def rbraceChar : Char := Char.ofNat 125

/-- Test for the two curly-bracket characters, the character set stripped by
`raw_path.strip` in `AudioConverterApp._normalize_path`. -/
def isBraceChar (c : Char) : Bool := c = lbraceChar || c = rbraceChar

/-- ASCII whitespace as matched by Python's regex class `\s` and by
`str.split()` with no arguments: space, tab, newline, carriage return,
vertical tab (code 11), form feed (code 12). -/
def isSpaceChar (c : Char) : Bool :=
  c = ' ' || c = '\t' || c = '\n' || c = '\r' || c = Char.ofNat 11 || c = Char.ofNat 12

/-- Numeric value of a string of decimal digits, as Python `int(...)`. -/
def digitsVal (ds : List Char) : Nat :=
  ds.foldl (fun a c => a * 10 + (c.toNat - 48)) 0

/-- All matches of the regex `\s(\d+)%` over a character list, in document
order, as computed by `re.findall`: a match needs a whitespace character,
then a maximal nonempty run of digits, then a percent sign (the greedy `\d+`
cannot backtrack to a shorter run, because the character after a shorter run
is a digit, not a percent sign); the captured group is the digit run.
`re.findall` resumes a scan after the percent sign of a match, while this
function always resumes at the character after the leading whitespace; the
results agree because the consumed region after that whitespace holds only
digits and a percent sign, none of which can start a new match, and the old
match cannot be re-found without its leading whitespace. -/
def findPercents : List Char → List Nat
  | [] => []
  | c :: rest =>
    if isSpaceChar c then
      match rest.dropWhile Char.isDigit with
      | '%' :: _ =>
        if rest.takeWhile Char.isDigit = [] then findPercents rest
        else digitsVal (rest.takeWhile Char.isDigit) :: findPercents rest
      | _ => findPercents rest
    else findPercents rest

/-- Matches of `ProgressParser.progress_pattern` over a string, in
`re.findall` order. -/
def progressMatches (s : String) : List Nat := findPercents s.toList

/-- Model of `ProgressParser.read_progress` applied to the full accumulated
text (`captured_content` after the buffer has been drained into it): the
first component is the returned value, the second the list of values passed
to `update_callback` during the call. -/
def read_progress (captured : String) : ℚ × List ℚ :=
  match (progressMatches captured).getLast? with
  | some n => ((n : ℚ) / 100, [(n : ℚ) / 100])
  | none => (0, [])

/-- State of the `StringIO` buffer and of `captured_content` between calls of
`read_progress`. -/
structure ParserBuf where
  capturedContent : String
  bufferData : String
deriving DecidableEq

/-- Buffer-drain part of `ProgressParser.read_progress`: the `StringIO`
buffer is read, appended to `captured_content` and truncated, then the
pattern scan runs over the whole accumulated text. -/
def read_progress_step (ps : ParserBuf) : ParserBuf × (ℚ × List ℚ) :=
  (⟨ps.capturedContent ++ ps.bufferData, ""⟩,
   read_progress (ps.capturedContent ++ ps.bufferData))

/-- Value of the process-global `sys.stdout` channel: either the original
stream, or the `StringIO` buffer owned by the `ProgressParser` instance with
the given id. -/
inductive Chan where
  | original
  | buffer (id : Nat)
deriving DecidableEq

/-- Model of a `ProgressParser` instance for the stdout-redirection part:
`originalStdout` is the value of `sys.stdout` snapshotted by `__init__`. -/
structure PParser where
  id : Nat
  originalStdout : Chan
deriving DecidableEq

/-- Model of `ProgressParser.__init__`: snapshots the current value of
`sys.stdout` into `self.original_stdout`; does not change `sys.stdout`. -/
def pparser_init (cur : Chan) (id : Nat) : PParser := ⟨id, cur⟩

/-- Model of `ProgressParser.__enter__`: sets `sys.stdout` to this parser's
buffer; the result is the new value of `sys.stdout`. -/
def pparser_enter (p : PParser) : Chan := Chan.buffer p.id

/-- Model of `ProgressParser.__exit__`: sets `sys.stdout` back to the value
snapshotted at construction time, whatever `sys.stdout` currently is; the
result is the new value of `sys.stdout`. -/
def pparser_exit (p : PParser) (_cur : Chan) : Chan := p.originalStdout

/-- Python `raw_path.strip` with the two curly-bracket characters: removes
any run of curly brackets from both ends of the string (and nothing else). -/
def py_strip_braces (s : String) : String :=
  String.mk (((s.toList.dropWhile isBraceChar).reverse.dropWhile isBraceChar).reverse)

/-- Python `str.split(sep)` for a single-character separator, keeping empty
fragments (used to model `posixpath.normpath` splitting on the slash). -/
def splitOnChar (sep : Char) : List Char → List (List Char)
  | [] => [[]]
  | c :: rest =>
    if c = sep then [] :: splitOnChar sep rest
    else
      match splitOnChar sep rest with
      | h :: t => (c :: h) :: t
      | [] => [[c]]

/-- One step of the component loop of `posixpath.normpath`: empty and `.`
components are dropped, `..` is appended when it cannot be resolved
(relative path with empty output so far, or output already ending in `..`)
and otherwise pops the previous component. -/
def normpath_fold (initialSlashes : Nat) (acc : List (List Char)) (comp : List Char) :
    List (List Char) :=
  if comp = [] ∨ comp = ['.'] then acc
  else if comp ≠ ['.', '.'] ∨ (initialSlashes = 0 ∧ acc = [])
      ∨ (acc ≠ [] ∧ acc.getLast? = some ['.', '.']) then acc ++ [comp]
  else if acc ≠ [] then acc.dropLast
  else acc

/-- Joining path components with single slashes. -/
def joinSlash : List (List Char) → List Char
  | [] => []
  | [x] => x
  | x :: y :: rest => x ++ '/' :: joinSlash (y :: rest)

/-- Model of `os.path.normpath` (POSIX flavour): collapses repeated
separators, removes `.` components, resolves `..` where possible, keeps a
double leading slash, drops a trailing slash, and maps the empty result to
`.`. -/
def normpath (p : String) : String :=
  if p = "" then "."
  else
    let cs := p.toList
    let initialSlashes : Nat :=
      match cs with
      | '/' :: '/' :: '/' :: _ => 1
      | '/' :: '/' :: _ => 2
      | '/' :: _ => 1
      | _ => 0
    let newComps := (splitOnChar '/' cs).foldl (normpath_fold initialSlashes) []
    let joined := List.replicate initialSlashes '/' ++ joinSlash newComps
    if joined = [] then "." else String.mk joined

/-- Model of `AudioConverterApp._normalize_path`: strip surrounding curly
brackets (drag-and-drop wrapping), then `os.path.normpath`. -/
def normalize_path (raw : String) : String := normpath (py_strip_braces raw)

/-- `AudioConverterApp.SUPPORTED_FORMATS`. -/
def SUPPORTED_FORMATS : List String := [".wav", ".mp3"]

/-- ASCII lowering, modelling Python `str.lower` on ASCII path strings. -/
def asciiLower (s : String) : String := String.mk (s.toList.map Char.toLower)

/-- Boolean test that the character list `l` ends with `suf` (Python
`str.endswith` on the underlying characters). -/
def ends_with_chars (l suf : List Char) : Bool :=
  l.drop (l.length - suf.length) == suf

/-- Model of `file_path.lower().endswith(self.SUPPORTED_FORMATS)`. -/
def has_supported_format (p : String) : Bool :=
  SUPPORTED_FORMATS.any (fun fmt => ends_with_chars (asciiLower p).toList fmt.toList)

/-- Model of `AudioConverterApp._validate_audio_file`: `fs` is the list of
paths that exist on disk; the result is the message of the exception raised
(`FileNotFoundError` before the extension check, as in the source), or
`none` when the file passes validation. -/
def validate_audio_file (fs : List String) (p : String) : Option String :=
  if ¬ fs.contains p then some ("Файл отсутствует: " ++ p)
  else if ¬ has_supported_format p then some ("Неподдерживаемый формат: " ++ p)
  else none

/-- A queue entry, modelling the Python dict with keys path and status built
in `_enqueue_files`. -/
structure QTask where
  path : String
  status : String
deriving DecidableEq

/-- Status string given to every enqueued task. -/
def pendingStatus : String := "В ожидании"

/-- State of `AudioConverterApp` relevant to queueing and job execution.
`workers` lists, in spawn order, the paths owning a live
`_execute_transcription` thread — i.e. the jobs currently in Running state;
`started` records the order in which jobs began processing; `saved` lists the
paths whose transcript file was written; `errors` the messages reported
through `_show_error`; `progressParser` whether `self.progress_parser` is
set; `ready` whether `model_ready` is set and `self.model` is loaded (both
become true together in `model_loader`). -/
structure AppState where
  queue : List QTask
  currentTask : Option QTask
  workers : List String
  started : List String
  saved : List String
  errors : List String
  progressParser : Bool
  ready : Bool
deriving DecidableEq

/-- Fresh state after the model has finished loading, with nothing queued. -/
def initialState : AppState :=
  { queue := [], currentTask := none, workers := [], started := [], saved := [],
    errors := [], progressParser := false, ready := true }

/-- Model of `AudioConverterApp._process_next_task`. When the model is not
ready the source re-arms itself with `after(100, ...)`, which is the identity
on the modelled state. When the queue is non-empty (and the model is loaded)
it pops the head, records it as the current task and spawns a transcription
worker thread for it. Note that the source checks only
`self.queue and self.model` — not whether a current task already exists. -/
def process_next_task (st : AppState) : AppState :=
  if st.ready then
    match st.queue with
    | [] => st
    | t :: rest =>
      { st with queue := rest, currentTask := some t,
                workers := st.workers ++ [t.path],
                started := st.started ++ [t.path] }
  else st

/-- Model of the loop body of `AudioConverterApp._enqueue_files` for one raw
path: normalize, validate (a raised exception is caught and becomes an error
message shown through `_show_error`), and append a pending task when no entry
of `self.queue` has the same path. The duplicate check ranges over
`self.queue` only. -/
def enqueue_one (fs : List String) (st : AppState) (raw : String) : AppState :=
  match validate_audio_file fs (normalize_path raw) with
  | some e => { st with errors := st.errors ++ [e] }
  | none =>
    if st.queue.any (fun t => t.path == normalize_path raw) then st
    else { st with queue := st.queue ++ [⟨normalize_path raw, pendingStatus⟩] }

/-- Model of `AudioConverterApp._enqueue_files`: the per-path loop followed
by the closing `_process_next_task` call. -/
def enqueue_files (fs : List String) (st : AppState) (raws : List String) : AppState :=
  process_next_task (raws.foldl (enqueue_one fs) st)

/-- Result of the `model.transcribe` call and of the transcript write, as
seen by `_execute_transcription`. -/
inductive Outcome where
  | success
  | engineError (msg : String)
  | saveError (msg : String)
deriving DecidableEq

/-- Model of one complete run of an `_execute_transcription` worker thread
spawned for the job `p`: attach the progress parser, run `model.transcribe`
with the given outcome; on success, `_save_transcription_result` writes the
transcript of `self.current_task` (a write failure is caught inside
`_save_transcription_result` and only reported); on an engine exception the
error is reported; in every case the `finally` block clears
`self.progress_parser` and `self.current_task` and triggers
`_process_next_task`. -/
def execute_transcription (p : String) (o : Outcome) (st : AppState) : AppState :=
  let st1 := { st with progressParser := true }
  let st2 :=
    match o with
    | Outcome.success =>
      match st1.currentTask with
      | some t => { st1 with saved := st1.saved ++ [t.path] }
      | none => { st1 with errors := st1.errors ++ ["Ошибка сохранения: TypeError"] }
    | Outcome.engineError e => { st1 with errors := st1.errors ++ [e] }
    | Outcome.saveError e => { st1 with errors := st1.errors ++ ["Ошибка сохранения: " ++ e] }
  let st3 := { st2 with progressParser := false, currentTask := none,
                        workers := st2.workers.erase p }
  process_next_task st3

/-- Fuel-indexed drain loop: while a current task exists, complete it
successfully (each completion itself triggering `_process_next_task`). -/
def drain : Nat → AppState → AppState
  | 0, st => st
  | n + 1, st =>
    match st.currentTask with
    | none => st
    | some t => drain n (execute_transcription t.path Outcome.success st)

/-- Effect of one enqueue on the list of pending queue paths: an invalid path
is skipped, a path already pending is skipped, any other path is appended. -/
def enqueue_key (fs : List String) (acc : List String) (raw : String) : List String :=
  match validate_audio_file fs (normalize_path raw) with
  | some _ => acc
  | none =>
    if acc.any (fun q => q == normalize_path raw) then acc
    else acc ++ [normalize_path raw]

/-- FIFO order of the first successful enqueues of a batch: duplicates (by
normalized path) collapsed to their first occurrence, invalid paths
dropped. -/
def planned_order (fs : List String) (raws : List String) : List String :=
  raws.foldl (enqueue_key fs) []

/-- Python `str.split()` with no arguments: split on runs of whitespace,
dropping empty fragments (helper carrying a reversed accumulator). -/
def py_split_aux : List Char → List Char → List (List Char)
  | [], acc => if acc = [] then [] else [acc.reverse]
  | c :: rest, acc =>
    if isSpaceChar c then
      if acc = [] then py_split_aux rest []
      else acc.reverse :: py_split_aux rest []
    else py_split_aux rest (c :: acc)

/-- Python `event.data.split()` as used in `_handle_dropped_files`. -/
def py_split (s : String) : List String :=
  (py_split_aux s.toList []).map (fun l => String.mk l)

/-- Model of `AudioConverterApp._handle_dropped_files` for a string payload:
the payload is split on whitespace and the fragments are enqueued. -/
def handle_dropped_files (fs : List String) (st : AppState) (data : String) : AppState :=
  enqueue_files fs st (py_split data)

/-! Helper lemmas about the embedded operations. -/

theorem process_next_task_nil (st : AppState) (h : st.queue = []) :
    process_next_task st = st := by
  unfold process_next_task
  rw [h]
  split <;> rfl

theorem process_next_task_cons (st : AppState) (t : QTask) (rest : List QTask)
    (hr : st.ready = true) (hq : st.queue = t :: rest) :
    process_next_task st =
      { st with queue := rest, currentTask := some t,
                workers := st.workers ++ [t.path],
                started := st.started ++ [t.path] } := by
  unfold process_next_task
  rw [hq, hr]
  simp

theorem execute_transcription_success (st : AppState) (t : QTask) (p : String)
    (hc : st.currentTask = some t) :
    execute_transcription p Outcome.success st =
      process_next_task
        { st with saved := st.saved ++ [t.path], progressParser := false,
                  currentTask := none, workers := st.workers.erase p } := by
  obtain ⟨q, cur, w, strt, sv, er, pp, rd⟩ := st
  simp only [AppState.currentTask] at hc
  subst hc
  rfl

theorem execute_transcription_engine_error (st : AppState) (p e : String) :
    execute_transcription p (Outcome.engineError e) st =
      process_next_task
        { st with errors := st.errors ++ [e], progressParser := false,
                  currentTask := none, workers := st.workers.erase p } := by
  obtain ⟨q, cur, w, strt, sv, er, pp, rd⟩ := st
  rfl

theorem execute_transcription_save_error (st : AppState) (p e : String) :
    execute_transcription p (Outcome.saveError e) st =
      process_next_task
        { st with errors := st.errors ++ ["Ошибка сохранения: " ++ e], progressParser := false,
                  currentTask := none, workers := st.workers.erase p } := by
  obtain ⟨q, cur, w, strt, sv, er, pp, rd⟩ := st
  rfl

theorem drain_no_current (k : Nat) (st : AppState) (h : st.currentTask = none) :
    drain k st = st := by
  cases k with
  | zero => rfl
  | succ n =>
    unfold drain
    rw [h]

theorem drain_run : ∀ (l : List QTask) (k : Nat) (st : AppState) (t : QTask),
    st.ready = true → st.currentTask = some t → st.queue = l → l.length ≤ k →
    (drain (k + 1) st).started = st.started ++ l.map QTask.path := by
  intro l
  induction l with
  | nil =>
    intro k st t hr hc hq hk
    rw [List.map_nil, List.append_nil]
    have h1 : drain (k + 1) st = drain k (execute_transcription t.path Outcome.success st) := by
      simp only [drain]
      rw [hc]
    rw [h1, execute_transcription_success st t t.path hc]
    rw [process_next_task_nil _ (by exact hq)]
    rw [drain_no_current k _ rfl]
  | cons t2 rest ih =>
    intro k st t hr hc hq hk
    obtain ⟨k2, rfl⟩ : ∃ k2, k = k2 + 1 := by
      cases k with
      | zero => simp at hk
      | succ m => exact ⟨m, rfl⟩
    have h1 : drain (k2 + 1 + 1) st
        = drain (k2 + 1) (execute_transcription t.path Outcome.success st) := by
      simp only [drain]
      rw [hc]
    rw [h1, execute_transcription_success st t t.path hc]
    rw [process_next_task_cons _ t2 rest (by exact hr) (by exact hq)]
    rw [ih k2 _ t2 (by exact hr) rfl rfl (by simpa using hk)]
    simp

theorem enqueue_one_fields (fs : List String) (st : AppState) (raw : String) :
    (enqueue_one fs st raw).currentTask = st.currentTask ∧
    (enqueue_one fs st raw).started = st.started ∧
    (enqueue_one fs st raw).workers = st.workers ∧
    (enqueue_one fs st raw).ready = st.ready := by
  unfold enqueue_one
  split
  · exact ⟨rfl, rfl, rfl, rfl⟩
  · split
    · exact ⟨rfl, rfl, rfl, rfl⟩
    · exact ⟨rfl, rfl, rfl, rfl⟩

theorem foldl_enqueue_fields (fs : List String) :
    ∀ (raws : List String) (st : AppState),
      (raws.foldl (enqueue_one fs) st).currentTask = st.currentTask ∧
      (raws.foldl (enqueue_one fs) st).started = st.started ∧
      (raws.foldl (enqueue_one fs) st).workers = st.workers ∧
      (raws.foldl (enqueue_one fs) st).ready = st.ready := by
  intro raws
  induction raws with
  | nil => intro st; exact ⟨rfl, rfl, rfl, rfl⟩
  | cons raw rest ih =>
    intro st
    have h1 := enqueue_one_fields fs st raw
    have h2 := ih (enqueue_one fs st raw)
    simp only [List.foldl_cons]
    exact ⟨h2.1.trans h1.1, h2.2.1.trans h1.2.1,
           h2.2.2.1.trans h1.2.2.1, h2.2.2.2.trans h1.2.2.2⟩

theorem enqueue_one_queue (fs : List String) (st : AppState) (raw : String) :
    (enqueue_one fs st raw).queue.map QTask.path
      = enqueue_key fs (st.queue.map QTask.path) raw := by
  unfold enqueue_one enqueue_key
  cases h : validate_audio_file fs (normalize_path raw) with
  | some e => rfl
  | none =>
    dsimp only
    have hg : (st.queue.map QTask.path).any (fun q => q == normalize_path raw)
        = st.queue.any (fun t => t.path == normalize_path raw) := by
      induction st.queue with
      | nil => rfl
      | cons a l ih => simp only [List.map_cons, List.any_cons, ih]
    rw [hg]
    split
    · rfl
    · simp

theorem foldl_enqueue_queue (fs : List String) :
    ∀ (raws : List String) (st : AppState),
      (raws.foldl (enqueue_one fs) st).queue.map QTask.path
        = raws.foldl (enqueue_key fs) (st.queue.map QTask.path) := by
  intro raws
  induction raws with
  | nil => intro st; rfl
  | cons raw rest ih =>
    intro st
    simp only [List.foldl_cons]
    rw [ih, enqueue_one_queue]

theorem enqueue_key_length (fs : List String) (acc : List String) (raw : String) :
    (enqueue_key fs acc raw).length ≤ acc.length + 1 := by
  unfold enqueue_key
  split
  · omega
  · split
    · omega
    · simp

theorem foldl_enqueue_key_length (fs : List String) :
    ∀ (raws : List String) (acc : List String),
      (raws.foldl (enqueue_key fs) acc).length ≤ acc.length + raws.length := by
  intro raws
  induction raws with
  | nil => intro acc; simp
  | cons raw rest ih =>
    intro acc
    simp only [List.foldl_cons, List.length_cons]
    have h1 := enqueue_key_length fs acc raw
    have h2 := ih (enqueue_key fs acc raw)
    omega

theorem process_next_task_saved (st : AppState) :
    (process_next_task st).saved = st.saved := by
  unfold process_next_task
  split
  · split <;> rfl
  · rfl

/-! Claim theorems. -/

/-- C1 (code bug in the source): the claim says a new transcription worker is
started only when no current job exists, so the queue-became-non-empty
trigger never launches a second concurrent transcription. In the source,
`_process_next_task` checks only `self.queue and self.model`, never whether
`self.current_task` is occupied: enqueueing `a.wav` starts a worker for it,
and enqueueing `b.wav` while that worker is still live pops `b.wav` and
spawns a second concurrent worker (two jobs in Running state), overwriting
the current-task slot. -/
theorem c1_code_bug_two_workers :
    (enqueue_files ["a.wav", "b.wav"] initialState ["a.wav"]).workers = ["a.wav"] ∧
    (enqueue_files ["a.wav", "b.wav"] initialState ["a.wav"]).currentTask
      = some ⟨"a.wav", pendingStatus⟩ ∧
    (enqueue_files ["a.wav", "b.wav"]
        (enqueue_files ["a.wav", "b.wav"] initialState ["a.wav"]) ["b.wav"]).workers
      = ["a.wav", "b.wav"] ∧
    (enqueue_files ["a.wav", "b.wav"]
        (enqueue_files ["a.wav", "b.wav"] initialState ["a.wav"]) ["b.wav"]).currentTask
      = some ⟨"b.wav", pendingStatus⟩ := by
  refine ⟨by decide, by decide, by decide, by decide⟩

/-- C2 (counterexample): after `a.wav` has been dequeued and is the current
job (queue empty), enqueueing `a.wav` again is not a no-op: the duplicate
check ranges over `self.queue` only, so a second pending entry for the
current job's path is appended. -/
theorem c2_counterexample :
    (enqueue_files ["a.wav"] initialState ["a.wav"]).currentTask
      = some ⟨"a.wav", pendingStatus⟩ ∧
    (enqueue_files ["a.wav"] initialState ["a.wav"]).queue = [] ∧
    (enqueue_one ["a.wav"] (enqueue_files ["a.wav"] initialState ["a.wav"]) "a.wav").queue
      = [⟨"a.wav", pendingStatus⟩] := by
  refine ⟨by decide, by decide, by decide⟩

/-- C2 (amended): an enqueue of a valid normalized path that is already
present among the pending queue entries is a silent no-op — the state (queue
included) is unchanged and no error is reported. A path equal only to the
currently executing job is not deduplicated. -/
theorem c2_pending_dedup_noop (fs : List String) (st : AppState) (raw : String)
    (hv : validate_audio_file fs (normalize_path raw) = none)
    (hq : st.queue.any (fun t => t.path == normalize_path raw) = true) :
    enqueue_one fs st raw = st := by
  simp [enqueue_one, hv, hq]

/-- C2 witness: concrete instance of the amended claim, with `a.wav` pending
in the queue (model still loading) and `a.wav` enqueued again. -/
theorem c2_witness :
    validate_audio_file ["a.wav"] (normalize_path "a.wav") = none ∧
    (⟨[⟨"a.wav", pendingStatus⟩], none, [], [], [], [], false, false⟩ : AppState).queue.any
        (fun t => t.path == normalize_path "a.wav") = true ∧
    enqueue_one ["a.wav"]
        (⟨[⟨"a.wav", pendingStatus⟩], none, [], [], [], [], false, false⟩ : AppState) "a.wav"
      = ⟨[⟨"a.wav", pendingStatus⟩], none, [], [], [], [], false, false⟩ :=
  ⟨by decide, by decide, c2_pending_dedup_noop _ _ _ (by decide) (by decide)⟩

/-- C3 (counterexample): `__init__` snapshots `sys.stdout` at construction
time, so when a second parser is constructed and started while the first
capture is active, the second parser's stop restores `sys.stdout` to the
first parser's buffer, not to the original target. Trace: p1 is constructed
under the original stdout and started; p2 is constructed (snapshotting p1's
buffer) and started; p1 stops (restoring the original); then p2 stops,
leaving stdout at p1's buffer. -/
theorem c3_counterexample :
    pparser_exit (pparser_init Chan.original 1)
        (pparser_enter (pparser_init (pparser_enter (pparser_init Chan.original 1)) 2))
      = Chan.original ∧
    pparser_exit (pparser_init (pparser_enter (pparser_init Chan.original 1)) 2)
        (pparser_exit (pparser_init Chan.original 1)
          (pparser_enter (pparser_init (pparser_enter (pparser_init Chan.original 1)) 2)))
      = Chan.buffer 1 ∧
    Chan.buffer 1 ≠ Chan.original := by
  refine ⟨rfl, rfl, by decide⟩

/-- C3 (amended): stopping a capture restores `sys.stdout` to the value that
`sys.stdout` had when that capture was constructed (and starting it points
`sys.stdout` at the capture's own buffer); only when no other capture became
active between construction and stop is that value the original target. -/
theorem c3_amended_restores_snapshot (c x : Chan) (n : Nat) :
    pparser_exit (pparser_init c n) x = c ∧
    pparser_enter (pparser_init c n) = Chan.buffer n :=
  ⟨rfl, rfl⟩

/-- C4 (counterexample): processing order does not equal FIFO order with
duplicates collapsed once enqueues interleave with processing: `a.wav` is
enqueued and starts processing; enqueueing `a.wav` again re-appends it (the
pending queue no longer holds it) and immediately starts it a second time,
so the started order is `a.wav, a.wav` while the collapsed FIFO order is the
single `a.wav`. -/
theorem c4_counterexample :
    (enqueue_files ["a.wav"] (enqueue_files ["a.wav"] initialState ["a.wav"]) ["a.wav"]).started
      = ["a.wav", "a.wav"] ∧
    planned_order ["a.wav"] (["a.wav"] ++ ["a.wav"]) = ["a.wav"] ∧
    (["a.wav", "a.wav"] : List String) ≠ ["a.wav"] := by
  refine ⟨by decide, by decide, by decide⟩

/-- C4 (amended): for a single batch of enqueue calls submitted to the idle
ready application and then drained to completion, the order in which jobs
begin processing equals the FIFO order of their first successful enqueue,
with duplicate enqueues of the same normalized path collapsed to the first
occurrence (`planned_order`); in general duplicates are collapsed only
against entries still pending at enqueue time. -/
theorem c4_amended_batch_fifo (fs : List String) (raws : List String) :
    (drain raws.length (enqueue_files fs initialState raws)).started
      = planned_order fs raws := by
  have hf := foldl_enqueue_fields fs raws initialState
  have hq : (raws.foldl (enqueue_one fs) initialState).queue.map QTask.path
      = planned_order fs raws := foldl_enqueue_queue fs raws initialState
  unfold enqueue_files
  cases hqq : (raws.foldl (enqueue_one fs) initialState).queue with
  | nil =>
    rw [process_next_task_nil _ hqq]
    rw [drain_no_current _ _ (hf.1.trans rfl)]
    rw [hf.2.1]
    rw [← hq, hqq]
    rfl
  | cons t rest =>
    have hready : (raws.foldl (enqueue_one fs) initialState).ready = true := hf.2.2.2
    have hlen : rest.length + 1 ≤ raws.length := by
      have h1 := foldl_enqueue_key_length fs raws []
      have h2 : (planned_order fs raws).length ≤ raws.length := by
        simpa [planned_order] using h1
      rw [← hq, hqq] at h2
      simpa using h2
    obtain ⟨k, hk⟩ : ∃ k, raws.length = k + 1 := ⟨raws.length - 1, by omega⟩
    rw [hk, process_next_task_cons _ t rest hready hqq]
    have hd := drain_run rest k
      { raws.foldl (enqueue_one fs) initialState with
        queue := rest, currentTask := some t,
        workers := (raws.foldl (enqueue_one fs) initialState).workers ++ [t.path],
        started := (raws.foldl (enqueue_one fs) initialState).started ++ [t.path] }
      t (by exact hready) rfl rfl (by omega)
    rw [hd]
    rw [← hq, hqq]
    have hst : (raws.foldl (enqueue_one fs) initialState).started = [] := hf.2.1
    simp [hst]

/-- C5 (confirmed): `read_progress` returns the last percentage token of the
accumulated text in document order (pattern: whitespace, one or more digits,
percent sign) divided by 100 — whatever came before it — and reports the
same value to the callback. -/
theorem c5_last_match_wins (s : String) (ms : List Nat) (n : Nat)
    (h : progressMatches s = ms ++ [n]) :
    read_progress s = ((n : ℚ) / 100, [(n : ℚ) / 100]) := by
  unfold read_progress
  rw [h, List.getLast?_concat]

/-- C5 witness: on text whose tokens are 10 percent, 55 percent, 42 percent
the result is 42/100 — the last match, not the maximum 55/100. -/
theorem c5_witness :
    progressMatches "ab 10% cd 55% ef 42%" = [10, 55] ++ [42] ∧
    read_progress "ab 10% cd 55% ef 42%" = ((42 : ℚ) / 100, [(42 : ℚ) / 100]) ∧
    (42 : ℚ) / 100 ≠ (55 : ℚ) / 100 :=
  ⟨by decide, c5_last_match_wins _ [10, 55] 42 (by decide), by norm_num⟩

/-- C6 (confirmed): percentage values pass through unclamped: when the last
token is an out-of-range value above 100, both the returned fraction and the
callback value are that value divided by 100, strictly greater than 1. -/
theorem c6_unclamped_passthrough (s : String) (n : Nat)
    (h : (progressMatches s).getLast? = some n) (hgt : 100 < n) :
    (read_progress s).1 = (n : ℚ) / 100 ∧ 1 < (read_progress s).1 ∧
    (read_progress s).2 = [(n : ℚ) / 100] := by
  have hv : read_progress s = ((n : ℚ) / 100, [(n : ℚ) / 100]) := by
    unfold read_progress
    rw [h]
  rw [hv]
  refine ⟨rfl, ?_, rfl⟩
  have h100 : (0 : ℚ) < 100 := by norm_num
  rw [one_lt_div h100]
  exact_mod_cast hgt

/-- C6 witness: text ending in a 150-percent token yields 150/100, above 1,
unclamped. -/
theorem c6_witness :
    (progressMatches "done 150%").getLast? = some 150 ∧
    (read_progress "done 150%").1 = (150 : ℚ) / 100 ∧
    1 < (read_progress "done 150%").1 :=
  ⟨by decide,
   (c6_unclamped_passthrough "done 150%" 150 (by decide) (by norm_num)).1,
   (c6_unclamped_passthrough "done 150%" 150 (by decide) (by norm_num)).2.1⟩

/-- C7 (confirmed): enqueueing a path that fails validation (missing on disk,
or extension outside the `.wav`/`.mp3` allow-list) reports the raised error
and changes nothing else: no entry is appended and the pending queue — like
every other field — is exactly as before. -/
theorem c7_invalid_not_enqueued (fs : List String) (st : AppState) (raw e : String)
    (h : validate_audio_file fs (normalize_path raw) = some e) :
    enqueue_one fs st raw = { st with errors := st.errors ++ [e] } := by
  simp [enqueue_one, h]

/-- C7 witness: enqueueing the nonexistent `/tmp/missing.wav` on the idle
state reports the missing-file error and leaves the queue empty. -/
theorem c7_witness :
    validate_audio_file [] (normalize_path "/tmp/missing.wav")
      = some "Файл отсутствует: /tmp/missing.wav" ∧
    (enqueue_one [] initialState "/tmp/missing.wav").queue = [] ∧
    enqueue_one [] initialState "/tmp/missing.wav"
      = { initialState with errors := ["Файл отсутствует: /tmp/missing.wav"] } :=
  ⟨by decide, by decide,
   c7_invalid_not_enqueued [] initialState "/tmp/missing.wav"
     "Файл отсутствует: /tmp/missing.wav" (by decide)⟩

/-- C8 (confirmed): when a job's transcription call raises, or when the
write of its result raises (caught inside `_save_transcription_result` with
the save-failure message), the error is reported, the progress parser is
detached, the current-task slot is handed over, and the next pending job is
triggered; completing that next job then runs it to completion (its
transcript is saved), so the earlier failure — of either kind — prevents
nothing. -/
theorem c8_failure_isolated (st : AppState) (p e : String) (t : QTask) (rest : List QTask)
    (hready : st.ready = true) (hq : st.queue = t :: rest) :
    ((execute_transcription p (Outcome.engineError e) st).errors = st.errors ++ [e] ∧
     (execute_transcription p (Outcome.engineError e) st).progressParser = false ∧
     (execute_transcription p (Outcome.engineError e) st).currentTask = some t ∧
     (execute_transcription p (Outcome.engineError e) st).started = st.started ++ [t.path] ∧
     (execute_transcription t.path Outcome.success
         (execute_transcription p (Outcome.engineError e) st)).saved
       = st.saved ++ [t.path]) ∧
    ((execute_transcription p (Outcome.saveError e) st).errors
       = st.errors ++ ["Ошибка сохранения: " ++ e] ∧
     (execute_transcription p (Outcome.saveError e) st).saved = st.saved ∧
     (execute_transcription p (Outcome.saveError e) st).progressParser = false ∧
     (execute_transcription p (Outcome.saveError e) st).currentTask = some t ∧
     (execute_transcription p (Outcome.saveError e) st).started = st.started ++ [t.path] ∧
     (execute_transcription t.path Outcome.success
         (execute_transcription p (Outcome.saveError e) st)).saved
       = st.saved ++ [t.path]) := by
  have h1 := execute_transcription_engine_error st p e
  have h2 := process_next_task_cons
      { st with errors := st.errors ++ [e], progressParser := false,
                currentTask := none, workers := st.workers.erase p }
      t rest (by exact hready) (by exact hq)
  have h3 := execute_transcription_save_error st p e
  have h4 := process_next_task_cons
      { st with errors := st.errors ++ ["Ошибка сохранения: " ++ e], progressParser := false,
                currentTask := none, workers := st.workers.erase p }
      t rest (by exact hready) (by exact hq)
  rw [h1, h2, h3, h4]
  refine ⟨⟨rfl, rfl, rfl, rfl, ?_⟩, rfl, rfl, rfl, rfl, rfl, ?_⟩
  · rw [execute_transcription_success _ t t.path rfl, process_next_task_saved]
  · rw [execute_transcription_success _ t t.path rfl, process_next_task_saved]

/-- C8 witness: `x.mp3` is running with `y.wav` pending; whether the engine
fails on `x.mp3` or the write of its transcript fails, the matching error is
reported, the parser detached, `y.wav` starts, and its completion saves its
transcript (and a save failure leaves nothing saved for `x.mp3`). -/
theorem c8_witness :
    ((execute_transcription "x.mp3" (Outcome.engineError "engine error")
        (⟨[⟨"y.wav", pendingStatus⟩], some ⟨"x.mp3", pendingStatus⟩, ["x.mp3"], ["x.mp3"],
          [], [], true, true⟩ : AppState)).errors = ["engine error"] ∧
     (execute_transcription "x.mp3" (Outcome.engineError "engine error")
        (⟨[⟨"y.wav", pendingStatus⟩], some ⟨"x.mp3", pendingStatus⟩, ["x.mp3"], ["x.mp3"],
          [], [], true, true⟩ : AppState)).progressParser = false ∧
     (execute_transcription "x.mp3" (Outcome.engineError "engine error")
        (⟨[⟨"y.wav", pendingStatus⟩], some ⟨"x.mp3", pendingStatus⟩, ["x.mp3"], ["x.mp3"],
          [], [], true, true⟩ : AppState)).currentTask = some ⟨"y.wav", pendingStatus⟩ ∧
     (execute_transcription "x.mp3" (Outcome.engineError "engine error")
        (⟨[⟨"y.wav", pendingStatus⟩], some ⟨"x.mp3", pendingStatus⟩, ["x.mp3"], ["x.mp3"],
          [], [], true, true⟩ : AppState)).started = ["x.mp3", "y.wav"] ∧
     (execute_transcription "y.wav" Outcome.success
        (execute_transcription "x.mp3" (Outcome.engineError "engine error")
          (⟨[⟨"y.wav", pendingStatus⟩], some ⟨"x.mp3", pendingStatus⟩, ["x.mp3"], ["x.mp3"],
            [], [], true, true⟩ : AppState))).saved = ["y.wav"]) ∧
    ((execute_transcription "x.mp3" (Outcome.saveError "disk full")
        (⟨[⟨"y.wav", pendingStatus⟩], some ⟨"x.mp3", pendingStatus⟩, ["x.mp3"], ["x.mp3"],
          [], [], true, true⟩ : AppState)).errors = ["Ошибка сохранения: " ++ "disk full"] ∧
     (execute_transcription "x.mp3" (Outcome.saveError "disk full")
        (⟨[⟨"y.wav", pendingStatus⟩], some ⟨"x.mp3", pendingStatus⟩, ["x.mp3"], ["x.mp3"],
          [], [], true, true⟩ : AppState)).saved = [] ∧
     (execute_transcription "x.mp3" (Outcome.saveError "disk full")
        (⟨[⟨"y.wav", pendingStatus⟩], some ⟨"x.mp3", pendingStatus⟩, ["x.mp3"], ["x.mp3"],
          [], [], true, true⟩ : AppState)).progressParser = false ∧
     (execute_transcription "x.mp3" (Outcome.saveError "disk full")
        (⟨[⟨"y.wav", pendingStatus⟩], some ⟨"x.mp3", pendingStatus⟩, ["x.mp3"], ["x.mp3"],
          [], [], true, true⟩ : AppState)).currentTask = some ⟨"y.wav", pendingStatus⟩ ∧
     (execute_transcription "x.mp3" (Outcome.saveError "disk full")
        (⟨[⟨"y.wav", pendingStatus⟩], some ⟨"x.mp3", pendingStatus⟩, ["x.mp3"], ["x.mp3"],
          [], [], true, true⟩ : AppState)).started = ["x.mp3", "y.wav"] ∧
     (execute_transcription "y.wav" Outcome.success
        (execute_transcription "x.mp3" (Outcome.saveError "disk full")
          (⟨[⟨"y.wav", pendingStatus⟩], some ⟨"x.mp3", pendingStatus⟩, ["x.mp3"], ["x.mp3"],
            [], [], true, true⟩ : AppState))).saved = ["y.wav"]) :=
  ⟨(c8_failure_isolated
      (⟨[⟨"y.wav", pendingStatus⟩], some ⟨"x.mp3", pendingStatus⟩, ["x.mp3"], ["x.mp3"],
        [], [], true, true⟩ : AppState)
      "x.mp3" "engine error" ⟨"y.wav", pendingStatus⟩ [] rfl rfl).1,
   (c8_failure_isolated
      (⟨[⟨"y.wav", pendingStatus⟩], some ⟨"x.mp3", pendingStatus⟩, ["x.mp3"], ["x.mp3"],
        [], [], true, true⟩ : AppState)
      "x.mp3" "disk full" ⟨"y.wav", pendingStatus⟩ [] rfl rfl).2⟩

/-- C9 (counterexample): `_normalize_path` strips only curly brackets, not
whitespace, so a path with surrounding whitespace does not normalize to the
same key as the bare path. -/
theorem c9_counterexample :
    normalize_path " /tmp/a.wav" = " /tmp/a.wav" ∧
    normalize_path " /tmp/a.wav" ≠ normalize_path "/tmp/a.wav" := by
  refine ⟨by decide, by decide⟩

/-- C9 (amended): normalization removes surrounding curly brackets (the
drag-and-drop wrapping) and canonicalizes separators (collapsing repeated
slashes, resolving dot and dot-dot components, dropping a trailing slash)
before validation and dedup; surrounding whitespace is not removed, so a
whitespace-wrapped path keys differently from the bare path. -/
theorem c9_amended_braces_and_separators :
    normalize_path "\x7b/tmp/a.wav\x7d" = "/tmp/a.wav" ∧
    normalize_path "/tmp//x/./../a.wav" = "/tmp/a.wav" ∧
    normalize_path "/tmp/a.wav/" = "/tmp/a.wav" ∧
    normalize_path " /tmp/a.wav" ≠ normalize_path "/tmp/a.wav" := by
  refine ⟨by decide, by decide, by decide, by decide⟩

/-- C10 (confirmed): a string drop payload is split on whitespace before
per-path normalization, so a single dropped file whose path contains a space
becomes two fragments, each validated independently: even when the exact
dropped path exists on disk, both fragments fail validation, two errors are
reported and nothing is enqueued or started. -/
theorem c10_drop_splits_on_whitespace :
    (∀ (fs : List String) (st : AppState) (data : String),
        handle_dropped_files fs st data = enqueue_files fs st (py_split data)) ∧
    py_split "/tmp/my song.wav" = ["/tmp/my", "song.wav"] ∧
    (handle_dropped_files ["/tmp/my song.wav"] initialState "/tmp/my song.wav").queue = [] ∧
    (handle_dropped_files ["/tmp/my song.wav"] initialState "/tmp/my song.wav").errors
      = ["Файл отсутствует: /tmp/my", "Файл отсутствует: song.wav"] ∧
    (handle_dropped_files ["/tmp/my song.wav"] initialState "/tmp/my song.wav").started
      = [] := by
  refine ⟨fun _ _ _ => rfl, by decide, by decide, by decide, by decide⟩
